import Mathlib

/-!
Shallow embedding of the quantum-state analysis core of the Quantum_Visualizer
repository (src/quantum_core.py and the relevant helper in src/utils.py).

Modelling conventions:
* numpy complex floating-point scalars are modelled by pairs of rationals
  (`Cplx`); 2x2 density matrices by `Mat2`.
* Python floats passed as gate angles are modelled by `PyFloat`, which keeps
  the non-finite values (nan, inf, -inf) as explicit constructors so that the
  code's (absent) finiteness checks can be discussed.
* The Qiskit statevector engine (`Statevector.from_instruction` with the
  AerSimulator fallback) is an external collaborator; it is modelled by an
  `Engine` parameter returning `Option`, where `none` stands for the
  exception path that the Python code catches and turns into
  `statevector = None`.  Likewise the sampling backend used for measurement
  counts is a `Sampler` parameter.
* A Python function that raises an uncaught exception is modelled as
  returning `none`; callers that catch the exception and return `False` are
  modelled by mapping `none` to an unchanged state with result `false`.
* Qiskit's `partial_trace` on the full density matrix built from a
  statevector is modelled by the standard index-sum formula with qubit 0 as
  the least significant bit of the basis index (Qiskit's convention).
-/

/-- Complex scalar: real and imaginary part, modelling numpy complex floats. -/
structure Cplx where
  re : ℚ
  im : ℚ
deriving DecidableEq

/-- Zero complex value (numpy `0`). -/
def Cplx.zero : Cplx := ⟨0, 0⟩

/-- Complex addition. -/
def Cplx.add (x y : Cplx) : Cplx := ⟨x.re + y.re, x.im + y.im⟩

/-- Complex multiplication. -/
def Cplx.mul (x y : Cplx) : Cplx :=
  ⟨x.re * y.re - x.im * y.im, x.re * y.im + x.im * y.re⟩

/-- Complex conjugation (numpy `conj`). -/
def Cplx.conj (x : Cplx) : Cplx := ⟨x.re, -x.im⟩

/-- Sum of a list of complex scalars (numpy summation). -/
def sumC (l : List Cplx) : Cplx := l.foldr Cplx.add Cplx.zero

/-- A 2x2 complex matrix, the shape of every reduced density matrix the
    analyzer produces; `aij` is the entry in row `i`, column `j`. -/
structure Mat2 where
  a00 : Cplx
  a01 : Cplx
  a10 : Cplx
  a11 : Cplx
deriving DecidableEq

/-- The all-zero 2x2 matrix, used as a `getD` default. -/
def zeroMat : Mat2 := ⟨Cplx.zero, Cplx.zero, Cplx.zero, Cplx.zero⟩

/-- Matrix product of 2x2 matrices (numpy `@`). -/
def matMul (x y : Mat2) : Mat2 :=
  ⟨(x.a00.mul y.a00).add (x.a01.mul y.a10), (x.a00.mul y.a01).add (x.a01.mul y.a11),
   (x.a10.mul y.a00).add (x.a11.mul y.a10), (x.a10.mul y.a01).add (x.a11.mul y.a11)⟩

/-- Trace of a 2x2 matrix (numpy `trace`). -/
def Mat2.trace (m : Mat2) : Cplx := m.a00.add m.a11

/-- Pauli X matrix, exactly as written in `get_bloch_coordinates`
    (src/quantum_core.py line 358). -/
def sigma_x : Mat2 := ⟨⟨0, 0⟩, ⟨1, 0⟩, ⟨1, 0⟩, ⟨0, 0⟩⟩

/-- Pauli Y matrix (src/quantum_core.py line 359): `[[0, -1j], [1j, 0]]`. -/
def sigma_y : Mat2 := ⟨⟨0, 0⟩, ⟨0, -1⟩, ⟨0, 1⟩, ⟨0, 0⟩⟩

/-- Pauli Z matrix (src/quantum_core.py line 360): `[[1, 0], [0, -1]]`. -/
def sigma_z : Mat2 := ⟨⟨1, 0⟩, ⟨0, 0⟩, ⟨0, 0⟩, ⟨-1, 0⟩⟩

/-- `QuantumStateAnalyzer.get_purity` (src/quantum_core.py lines 324-339):
    `np.real(np.trace(dm @ dm))`.  The function reads no state besides its
    argument. -/
def get_purity (dm : Mat2) : ℚ := (Mat2.trace (matMul dm dm)).re

/-- `QuantumStateAnalyzer.get_bloch_coordinates` (src/quantum_core.py lines
    341-366): the real parts of `Tr(dm @ sigma)` for the three Pauli
    matrices.  The function reads no state besides its argument. -/
def get_bloch_coordinates (dm : Mat2) : ℚ × ℚ × ℚ :=
  ((Mat2.trace (matMul dm sigma_x)).re,
   (Mat2.trace (matMul dm sigma_y)).re,
   (Mat2.trace (matMul dm sigma_z)).re)

/-- `_get_bloch_coordinates` (src/utils.py lines 285-301), textually the same
    computation as the method in quantum_core.py. -/
def utils_get_bloch_coordinates (dm : Mat2) : ℚ × ℚ × ℚ :=
  ((Mat2.trace (matMul dm sigma_x)).re,
   (Mat2.trace (matMul dm sigma_y)).re,
   (Mat2.trace (matMul dm sigma_z)).re)

/-- C1: for every 2x2 density matrix, `get_purity` returns the real part of
    Tr(rho*rho) and `get_bloch_coordinates` returns the triple
    (Tr(rho*sigma_x), Tr(rho*sigma_y), Tr(rho*sigma_z)) (real parts) with the
    standard Pauli matrices; the helper in utils.py computes the same triple.
    Both functions depend on nothing but their argument. -/
theorem purity_bloch_contract (rho : Mat2) :
    get_purity rho = (Mat2.trace (matMul rho rho)).re ∧
    get_bloch_coordinates rho =
      ((Mat2.trace (matMul rho sigma_x)).re,
       (Mat2.trace (matMul rho sigma_y)).re,
       (Mat2.trace (matMul rho sigma_z)).re) ∧
    utils_get_bloch_coordinates rho = get_bloch_coordinates rho :=
  ⟨rfl, rfl, rfl⟩

/-- Element access into a statevector, `sv[i]` with numpy-style indexing
    (indices used below are always in range; out of range defaults to 0). -/
def svGet (sv : List Cplx) (i : Nat) : Cplx := sv.getD i Cplx.zero

/-- Build the full basis index whose bit at position `q` is `bit` and whose
    remaining `n-1` bits are the bits of `r` (Qiskit convention: qubit 0 is
    the least significant bit of the index). -/
def insertBit (q r bit : Nat) : Nat := r / 2 ^ q * 2 ^ (q + 1) + bit * 2 ^ q + r % 2 ^ q

/-- Entry `(a, b)` of the reduced density matrix for qubit `q` of an
    `n`-qubit statevector: the sum over all assignments `r` of the other
    qubits of `rho[insertBit q r a][insertBit q r b]` where
    `rho = np.outer(sv, sv.conj())` — this is what
    `partial_trace(rho, qubits_to_trace)` (Qiskit) returns in
    `_calculate_partial_traces` (src/quantum_core.py lines 248-261). -/
def reducedEntry (sv : List Cplx) (n q a b : Nat) : Cplx :=
  sumC ((List.range (2 ^ (n - 1))).map
    (fun r => (svGet sv (insertBit q r a)).mul (Cplx.conj (svGet sv (insertBit q r b)))))

/-- The 2x2 reduced density matrix of qubit `q`. -/
def reducedMat (sv : List Cplx) (n q : Nat) : Mat2 :=
  ⟨reducedEntry sv n q 0 0, reducedEntry sv n q 0 1,
   reducedEntry sv n q 1 0, reducedEntry sv n q 1 1⟩

/-- `QuantumStateAnalyzer._calculate_partial_traces` (src/quantum_core.py
    lines 235-263): `num_qubits = int(np.log2(len(statevector)))`, then one
    reduced matrix per qubit index in `range(num_qubits)`.  The function has
    no error path: it validates nothing about the input. -/
def calculateReducedTraces (sv : List Cplx) : List Mat2 :=
  (List.range (Nat.log2 sv.length)).map (fun q => reducedMat sv (Nat.log2 sv.length) q)

/-- C5 counterexample input: the unnormalized one-qubit statevector `[2, 0]`
    (squared norm 4). -/
def badSv : List Cplx := [⟨2, 0⟩, ⟨0, 0⟩]

/-- C5 counterexample: on the unnormalized statevector `[2, 0]` the
    partial-trace routine does not report any `InvalidState` error — its type
    has no error outcome at all — and returns the reduced matrix
    `[[4, 0], [0, 0]]`, whose trace is 4, not within 1e-9 of 1.  So the
    routine neither rejects nor renormalizes a non-normalized input, contrary
    to the claim that it reports an error rather than returning a result. -/
theorem reduced_traces_unnormalized_returns_result :
    calculateReducedTraces badSv = [⟨⟨4, 0⟩, ⟨0, 0⟩, ⟨0, 0⟩, ⟨0, 0⟩⟩] ∧
    Mat2.trace ⟨⟨4, 0⟩, ⟨0, 0⟩, ⟨0, 0⟩, ⟨0, 0⟩⟩ ≠ ⟨1, 0⟩ := by
  constructor
  · show (List.range (Nat.log2 2)).map (fun q => reducedMat badSv (Nat.log2 2) q) = _
    have h2 : Nat.log2 2 = 1 := by simp [Nat.log2]
    rw [h2]
    show [reducedMat badSv 1 0] = _
    have hi : ∀ bit : Nat, insertBit 0 0 bit = bit := by
      intro bit
      simp [insertBit]
    have he : ∀ a b : Nat, reducedEntry badSv 1 0 a b =
        (svGet badSv a).mul (Cplx.conj (svGet badSv b)) := by
      intro a b
      show sumC ((List.range 1).map _) = _
      rw [show List.range 1 = [0] from rfl]
      show Cplx.add
        ((svGet badSv (insertBit 0 0 a)).mul (Cplx.conj (svGet badSv (insertBit 0 0 b))))
        Cplx.zero = _
      rw [hi, hi]
      simp [Cplx.add, Cplx.zero]
    simp only [reducedMat, he]
    norm_num [svGet, badSv, Cplx.mul, Cplx.conj, Cplx.zero]
  · intro h
    have h2 := congrArg Cplx.re h
    norm_num [Mat2.trace, Cplx.add] at h2

/-- C5 amended: the partial-trace routine is total and unconditional — for
    every input statevector (normalized or not) it returns exactly
    `num_qubits = log2(len)` reduced matrices, the matrix for qubit `q` being
    computed directly from the raw input; no `InvalidState` error is ever
    reported and no renormalization happens. -/
theorem reduced_traces_total (sv : List Cplx) :
    (calculateReducedTraces sv).length = Nat.log2 sv.length ∧
    ∀ q, q < Nat.log2 sv.length →
      (calculateReducedTraces sv).getD q zeroMat = reducedMat sv (Nat.log2 sv.length) q := by
  constructor
  · simp [calculateReducedTraces]
  · intro q hq
    simp [calculateReducedTraces, List.getD_eq_getElem?_getD, List.getElem?_map,
      List.getElem?_range, hq]

/-- C5 amended, witness: evaluating the amended statement on the concrete
    statevector `[2, 0]`. -/
theorem reduced_traces_total_witness :
    (calculateReducedTraces badSv).length = Nat.log2 badSv.length ∧
    (calculateReducedTraces badSv).getD 0 zeroMat = reducedMat badSv (Nat.log2 badSv.length) 0 :=
  ⟨(reduced_traces_total badSv).1,
   (reduced_traces_total badSv).2 0 (by simp [badSv, Nat.log2])⟩

/-- A Python float as passed for gate angles: a finite value, or one of the
    non-finite floats.  Qiskit's `Gate.validate_parameter` accepts every
    `float`, finite or not, so the model keeps them distinguishable. -/
inductive PyFloat where
  | val (q : ℚ)
  | nan
  | inf
  | ninf
deriving DecidableEq

/-- One entry of `QuantumCircuit.data`: instruction name, qubit arguments,
    classical-bit arguments, and gate parameters. -/
structure Op where
  name : String
  qargs : List Nat
  cargs : List Nat
  params : List PyFloat
deriving DecidableEq

/-- A Qiskit `QuantumCircuit`: qubit count, classical-bit count, and the
    ordered instruction list `data`. -/
structure Circuit where
  numQubits : Nat
  numClbits : Nat
  ops : List Op
deriving DecidableEq

/-- One entry of `state_history` as built by `_build_state_history`
    (src/quantum_core.py lines 299-305). -/
structure StepRec where
  step : Nat
  gate : String
  qubits : List Nat
  statevector : List Cplx
  reducedTraces : List Mat2
deriving DecidableEq

/-- The mutable fields of `QuantumStateAnalyzer` (src/quantum_core.py
    lines 32-34): the current circuit (or `None`), the state history, and
    `current_step`. -/
structure Analyzer where
  circuit : Option Circuit
  state_history : List StepRec
  current_step : Nat
deriving DecidableEq

/-- ASCII lowering of one character, the behaviour of Python's `str.lower`
    on the ASCII range (gate names are compared against ASCII literals, so
    this is the only range `add_gate` is sensitive to). -/
def pyLowerChar (c : Char) : Char :=
  if 65 ≤ c.toNat ∧ c.toNat ≤ 90 then Char.ofNat (c.toNat + 32) else c

/-- Python's `gate_name.lower()` as used in `add_gate`. -/
def pyLower (s : String) : String := ⟨s.data.map pyLowerChar⟩

theorem char_toNat_ofNat (n : Nat) (h : n.isValidChar) : (Char.ofNat n).toNat = n := by
  simp [Char.ofNat, h, Char.ofNatAux, Char.toNat, UInt32.toNat, BitVec.toNat_ofNatLt]

theorem pyLowerChar_idem (c : Char) : pyLowerChar (pyLowerChar c) = pyLowerChar c := by
  unfold pyLowerChar
  split
  · next h =>
    have hv : (c.toNat + 32).isValidChar := by
      left
      simp only [Char.toNat] at h ⊢
      omega
    have ht : (Char.ofNat (c.toNat + 32)).toNat = c.toNat + 32 := char_toNat_ofNat _ hv
    rw [if_neg]
    rw [ht]
    omega
  · rfl

theorem pyLower_idem (s : String) : pyLower (pyLower s) = pyLower s := by
  unfold pyLower
  apply congrArg String.mk
  show (s.data.map pyLowerChar).map pyLowerChar = s.data.map pyLowerChar
  rw [List.map_map]
  exact List.map_congr_left (fun c _ => pyLowerChar_idem c)

/-- `QuantumStateAnalyzer.create_circuit` (src/quantum_core.py lines 36-53).
    `num_classical_bits` defaults to 0 and is replaced by `num_qubits` when
    it is 0.  The `QuantumCircuit` constructor accepts any non-negative
    register sizes (including 0) and raises `CircuitError` on a negative
    size; `create_circuit` does not catch that exception, so `none` models
    the exception propagating to the caller with every analyzer field left
    exactly as it was.  On success the new circuit has an empty operation
    list and the history and step counter are reset. -/
def create_circuit (_st : Analyzer) (num_qubits num_classical_bits : Int) : Option Analyzer :=
  let ncb := if num_classical_bits = 0 then num_qubits else num_classical_bits
  if num_qubits < 0 ∨ ncb < 0 then none
  else some { circuit := some ⟨num_qubits.toNat, ncb.toNat, []⟩,
              state_history := [], current_step := 0 }

/-- Appending a one-qubit instruction: Qiskit's gate methods raise
    `CircuitError` (modelled as `none`) when the qubit index is out of
    range, and otherwise append one instruction to `data`. -/
def appendSingle (c : Circuit) (nm : String) (q : Nat) (ps : List PyFloat) : Option Circuit :=
  if q < c.numQubits then some { c with ops := c.ops ++ [⟨nm, [q], [], ps⟩] } else none

/-- Appending a two-qubit instruction: Qiskit raises `CircuitError`
    (modelled as `none`) when either index is out of range or the two
    indices coincide (duplicate qubit arguments), and otherwise appends one
    instruction. -/
def appendTwo (c : Circuit) (nm : String) (q t : Nat) : Option Circuit :=
  if q < c.numQubits ∧ t < c.numQubits ∧ q ≠ t then
    some { c with ops := c.ops ++ [⟨nm, [q, t], [], []⟩] }
  else none

/-- The `elif` dispatch chain of `add_gate` (src/quantum_core.py lines
    73-104), applied to the already-lowered gate name: rotation branches
    additionally require the angle to be present (`angle is not None`, no
    finiteness test), two-qubit branches require `target_qubit is not None`;
    any other combination falls through to `return False` (`none`). -/
def tryGate (c : Circuit) (g : String) (qubit : Nat) (target_qubit : Option Nat)
    (angle : Option PyFloat) : Option Circuit :=
  if g = "h" then appendSingle c "h" qubit []
  else if g = "x" then appendSingle c "x" qubit []
  else if g = "y" then appendSingle c "y" qubit []
  else if g = "z" then appendSingle c "z" qubit []
  else if g = "s" then appendSingle c "s" qubit []
  else if g = "sdg" then appendSingle c "sdg" qubit []
  else if g = "t" then appendSingle c "t" qubit []
  else if g = "tdg" then appendSingle c "tdg" qubit []
  else if g = "rx" ∧ angle.isSome then appendSingle c "rx" qubit angle.toList
  else if g = "ry" ∧ angle.isSome then appendSingle c "ry" qubit angle.toList
  else if g = "rz" ∧ angle.isSome then appendSingle c "rz" qubit angle.toList
  else if g = "cx" ∧ target_qubit.isSome then appendTwo c "cx" qubit (target_qubit.getD 0)
  else if g = "cy" ∧ target_qubit.isSome then appendTwo c "cy" qubit (target_qubit.getD 0)
  else if g = "cz" ∧ target_qubit.isSome then appendTwo c "cz" qubit (target_qubit.getD 0)
  else if g = "swap" ∧ target_qubit.isSome then appendTwo c "swap" qubit (target_qubit.getD 0)
  else none

/-- `QuantumStateAnalyzer.add_gate` (src/quantum_core.py lines 55-108):
    returns `False` when no circuit is set; otherwise lowers the gate name,
    dispatches, and returns `True` after a successful append.  Both the
    `else: return False` fallthrough and a caught `CircuitError` leave the
    analyzer unchanged and return `False`. -/
def add_gate (st : Analyzer) (gate_name : String) (qubit : Nat) (target_qubit : Option Nat)
    (angle : Option PyFloat) : Analyzer × Bool :=
  match st.circuit with
  | none => (st, false)
  | some c =>
    match tryGate c (pyLower gate_name) qubit target_qubit angle with
    | some c2 => ({ st with circuit := some c2 }, true)
    | none => (st, false)

/-- Fresh analyzer: no circuit set, empty history. -/
def anaEmpty : Analyzer := ⟨none, [], 0⟩

/-- A set 1-qubit circuit with no operations yet. -/
def c1q : Circuit := ⟨1, 1, []⟩

/-- Analyzer holding the empty 1-qubit circuit. -/
def st1q : Analyzer := ⟨some c1q, [], 0⟩

/-- A set 2-qubit circuit with no operations yet. -/
def c2q : Circuit := ⟨2, 2, []⟩

/-- Analyzer holding the empty 2-qubit circuit. -/
def st2q : Analyzer := ⟨some c2q, [], 0⟩

/-- C9 counterexample: `create_circuit` with qubit count 0 (which is less
    than 1) does not fail with any `InvalidDimension` error: the
    `QuantumCircuit(0, 0)` constructor accepts size 0, so the call succeeds
    and installs an empty 0-qubit circuit. -/
theorem create_zero_qubits_succeeds :
    create_circuit anaEmpty 0 0 = some ⟨some ⟨0, 0, []⟩, [], 0⟩ := by
  decide

/-- C9 amended: `create_circuit` fails (by an uncaught `CircuitError` from
    the constructor, leaving the analyzer untouched) exactly when a register
    size is negative; for every qubit count ≥ 0 — including 0 — it succeeds,
    installs a circuit with an empty operation list, and clears the state
    history and step counter.  The classical-bit count defaults to the qubit
    count when given as 0. -/
theorem create_circuit_behavior (st : Analyzer) (nq ncb : Int) :
    (nq < 0 → create_circuit st nq ncb = none) ∧
    (0 ≤ nq → 0 ≤ ncb →
      create_circuit st nq ncb =
        some ⟨some ⟨nq.toNat, (if ncb = 0 then nq else ncb).toNat, []⟩, [], 0⟩) := by
  constructor
  · intro h
    simp [create_circuit, h]
  · intro h1 h2
    have hcond : ¬(nq < 0 ∨ (if ncb = 0 then nq else ncb) < 0) := by
      rw [not_or]
      constructor
      · omega
      · split <;> omega
    simp only [create_circuit]
    rw [if_neg hcond]

/-- C9 amended, witness: a negative size fails, size 3 succeeds with reset
    fields. -/
theorem create_circuit_behavior_witness :
    create_circuit anaEmpty (-1) 0 = none ∧
    create_circuit anaEmpty 3 0 = some ⟨some ⟨3, 3, []⟩, [], 0⟩ :=
  ⟨(create_circuit_behavior anaEmpty (-1) 0).1 (by decide),
   ((create_circuit_behavior anaEmpty 3 0).2 (by decide) (by decide)).trans (by decide)⟩

/-- C7: appending any of the two-qubit gates (cx, cy, cz, swap) with control
    and target both equal to `q` returns `False` and leaves the analyzer —
    hence the circuit, its operation list and its depth — exactly unchanged:
    Qiskit rejects the duplicate qubit argument and `add_gate` catches the
    exception before anything is appended. -/
theorem two_qubit_same_control_target_fails (st : Analyzer) (gate_name : String) (q : Nat)
    (angle : Option PyFloat)
    (h : pyLower gate_name = "cx" ∨ pyLower gate_name = "cy" ∨
         pyLower gate_name = "cz" ∨ pyLower gate_name = "swap") :
    add_gate st gate_name q (some q) angle = (st, false) := by
  have hko : ∀ c : Circuit, tryGate c (pyLower gate_name) q (some q) angle = none := by
    intro c
    rcases h with h | h | h | h <;> simp [tryGate, h, appendTwo]
  cases hc : st.circuit <;> simp [add_gate, hc, hko]

/-- C7 witness: on a 2-qubit circuit, `add_gate("CX", 0, 0)` fails and the
    analyzer is unchanged. -/
theorem two_qubit_same_control_target_fails_witness :
    add_gate st2q "CX" 0 (some 0) none = (st2q, false) :=
  two_qubit_same_control_target_fails st2q "CX" 0 none (Or.inl (by decide))

/-- The analyzer state after `add_gate("rx", 0, angle=nan)` on the empty
    1-qubit circuit: the rx instruction with parameter nan has been
    appended. -/
def st1qRxNan : Analyzer := ⟨some ⟨1, 1, [⟨"rx", [0], [], [PyFloat.nan]⟩]⟩, [], 0⟩

/-- C8 counterexample: appending `rx` with the non-finite angle `nan`
    succeeds — `add_gate` only tests `angle is not None` and Qiskit's
    parameter validation accepts every float — so the call returns `True`
    and extends the circuit, contrary to the claim that a non-finite angle
    fails and leaves the circuit unchanged. -/
theorem rotation_nan_appended :
    add_gate st1q "rx" 0 none (some PyFloat.nan) = (st1qRxNan, true) ∧ st1qRxNan ≠ st1q := by
  constructor
  · decide
  · decide

/-- C8 amended: a rotation gate (rx, ry, rz) with a missing angle falls
    through the dispatch chain and fails with the circuit unchanged; with
    any supplied angle — finite or not, nan and infinities included — and an
    in-range qubit, the append succeeds and records that angle.  Finiteness
    is never checked. -/
theorem rotation_angle_behavior (st : Analyzer) (g : String) (q : Nat) (t : Option Nat)
    (hg : pyLower g = "rx" ∨ pyLower g = "ry" ∨ pyLower g = "rz") :
    add_gate st g q t none = (st, false) ∧
    ∀ c, st.circuit = some c → q < c.numQubits → ∀ a : PyFloat,
      add_gate st g q t (some a) =
        ({ st with circuit := some { c with ops := c.ops ++ [⟨pyLower g, [q], [], [a]⟩] } },
         true) := by
  constructor
  · have hko : ∀ c : Circuit, tryGate c (pyLower g) q t none = none := by
      intro c
      rcases hg with h | h | h <;> simp [tryGate, h]
    cases hc : st.circuit <;> simp [add_gate, hc, hko]
  · intro c hc hq a
    rcases hg with h | h | h <;>
      simp [add_gate, hc, tryGate, h, appendSingle, hq]

/-- C8 amended, witness: on the empty 1-qubit circuit, `add_gate("RY", 0)`
    with no angle fails, and with angle 1 it succeeds and appends `ry`. -/
theorem rotation_angle_behavior_witness :
    add_gate st1q "RY" 0 none none = (st1q, false) ∧
    add_gate st1q "RY" 0 none (some (PyFloat.val 1)) =
      ({ st1q with
          circuit := some { c1q with ops := c1q.ops ++ [⟨pyLower "RY", [0], [], [PyFloat.val 1]⟩] } },
       true) :=
  ⟨(rotation_angle_behavior st1q "RY" 0 none (Or.inr (Or.inl (by decide)))).1,
   (rotation_angle_behavior st1q "RY" 0 none (Or.inr (Or.inl (by decide)))).2
     c1q rfl (by decide) (PyFloat.val 1)⟩

/-- C10: `add_gate` is case-insensitive in the gate name — every dispatch
    branch compares `gate_name.lower()`, and lowering is idempotent, so the
    call behaves identically on a name and on its lower-cased form (same
    return value, same resulting analyzer). -/
theorem add_gate_case_insensitive (st : Analyzer) (gate_name : String) (q : Nat)
    (t : Option Nat) (a : Option PyFloat) :
    add_gate st gate_name q t a = add_gate st (pyLower gate_name) q t a := by
  simp only [add_gate, pyLower_idem]

/-- The statevector engine (`Statevector.from_instruction`, with the
    AerSimulator fallback): from a qubit count and an instruction list it
    returns the amplitude vector, or `none` for the caught exception path.
    The Python code treats it as a pure external collaborator. -/
abbrev Engine := Nat → List Op → Option (List Cplx)

/-- The sampling backend used for measurement counts
    (`self.backend.run(circuit, shots=shots)` followed by `get_counts`):
    returns a bitstring-to-count mapping, or `none` for the caught exception
    path. -/
abbrev Sampler := Circuit → Nat → Option (List (String × Nat))

/-- One step of Qiskit's layered `QuantumCircuit.depth`: each wire (qubit or
    classical bit) carries a level; an instruction raises all the wires it
    touches to one past their maximum level. -/
def depthStep (nq : Nat) (levels : List Nat) (op : Op) : List Nat :=
  let touched := op.qargs ++ op.cargs.map (fun b => nq + b)
  let m := touched.foldl (fun acc i => max acc (levels.getD i 0)) 0
  (List.range levels.length).map (fun i => if i ∈ touched then m + 1 else levels.getD i 0)

/-- `QuantumCircuit.depth()` (layer-based circuit depth, an external library
    function used by `simulate_circuit` and `get_circuit_info`). -/
def Circuit.depth (c : Circuit) : Nat :=
  (c.ops.foldl (depthStep c.numQubits) (List.replicate (c.numQubits + c.numClbits) 0)).foldl
    max 0

/-- Insert one occurrence of a gate name into a name-to-count tally. -/
def tallyAdd (l : List (String × Nat)) (nm : String) : List (String × Nat) :=
  if l.any (fun p => p.1 == nm) then
    l.map (fun p => if p.1 == nm then (p.1, p.2 + 1) else p)
  else l ++ [(nm, 1)]

/-- `QuantumCircuit.count_ops()`: gate-name occurrence counts. -/
def count_ops (c : Circuit) : List (String × Nat) :=
  c.ops.foldl (fun acc op => tallyAdd acc op.name) []

/-- `has_measurements = any(inst.name == 'measure' for inst, _, _ in
    self.circuit.data)` (src/quantum_core.py line 143). -/
def hasMeasurements (c : Circuit) : Bool := c.ops.any (fun op => op.name == "measure")

/-- The non-measurement instructions in their original order, as collected
    by the copy loop of src/quantum_core.py lines 150-154. -/
def measureFreeOps (c : Circuit) : List Op := c.ops.filter (fun op => op.name != "measure")

/-- The statevector branch of `simulate_circuit` (src/quantum_core.py lines
    145-184): with measurements present, run the engine on the
    measurement-free copy unless that copy is empty (then `None` with the
    "only measurements" warning); without measurements, run the engine on
    the original circuit. -/
def svForCircuit (engine : Engine) (c : Circuit) : Option (List Cplx) :=
  if hasMeasurements c then
    if (measureFreeOps c).isEmpty then none
    else engine c.numQubits (measureFreeOps c)
  else engine c.numQubits c.ops

/-- The partial-trace step of `simulate_circuit` (src/quantum_core.py lines
    200-215): traces are computed only when a statevector of positive length
    is available, otherwise the result is the empty list. -/
def tracesOf : Option (List Cplx) → List Mat2
  | some v => if 0 < v.length then calculateReducedTraces v else []
  | none => []

/-- The accumulator of `_build_state_history`: the instruction list of
    `temp_circuit` and the history built so far. -/
abbrev HistState := List Op × List StepRec

/-- One loop iteration of `_build_state_history` (src/quantum_core.py lines
    273-308): measurements are skipped entirely; otherwise the operation is
    appended to the accumulator circuit first, then the engine runs on the
    prefix — on success a record (indexed by the current history length) is
    emitted, on failure the step is dropped and the loop continues with the
    same history and the already-extended accumulator. -/
def buildStep (engine : Engine) (n : Nat) (acc : HistState) (op : Op) : HistState :=
  if op.name == "measure" then acc
  else
    match engine n (acc.1 ++ [op]) with
    | some sv =>
      (acc.1 ++ [op],
       acc.2 ++ [⟨acc.2.length, op.name, op.qargs, sv, calculateReducedTraces sv⟩])
    | none => (acc.1 ++ [op], acc.2)

/-- `QuantumStateAnalyzer._build_state_history` (src/quantum_core.py lines
    265-308), starting from an empty accumulator circuit and empty history. -/
def build_state_history (engine : Engine) (c : Circuit) : List StepRec :=
  (c.ops.foldl (buildStep engine c.numQubits) ([], [])).2

/-- The dictionary returned by a successful `simulate_circuit`
    (src/quantum_core.py lines 220-228). -/
structure OkResult where
  statevector : Option (List Cplx)
  counts : List (String × Nat)
  reducedTraces : List Mat2
  circuit_depth : Nat
  num_qubits : Nat
  num_gates : List (String × Nat)
  has_measurements : Bool
deriving DecidableEq

/-- The three shapes `simulate_circuit` can return: the bare `{}` for an
    unset circuit (line 139), a normal result dictionary, or the
    `{'error': ...}` record of the top-level exception handler (line 233). -/
inductive SimResult where
  | empty
  | ok (r : OkResult)
  | err (msg : String)
deriving DecidableEq

/-- Is the result the error record `{'error': ...}`? -/
def isErrorResult : SimResult → Bool
  | SimResult.err _ => true
  | _ => false

/-- `QuantumStateAnalyzer.simulate_circuit` (src/quantum_core.py lines
    128-233).  Engine and sampler exceptions are caught inside the modelled
    paths (statevector/counts fall back to `None`/`{}`), so the top-level
    `except` branch producing `SimResult.err` is unreachable in the model;
    it exists to distinguish the error record from the `{}` of an unset
    circuit.  The call also rebuilds `state_history` as a side effect. -/
def simulate_circuit (engine : Engine) (sampler : Sampler) (st : Analyzer) (shots : Nat) :
    SimResult × Analyzer :=
  match st.circuit with
  | none => (SimResult.empty, st)
  | some c =>
    let sv := svForCircuit engine c
    let counts := if hasMeasurements c then (sampler c shots).getD [] else []
    (SimResult.ok
      ⟨sv, counts, tracesOf sv, c.depth, c.numQubits, count_ops c, hasMeasurements c⟩,
     { st with state_history := build_state_history engine c })

/-- A deterministic engine for concrete runs: always returns the one-qubit
    statevector [0, 1]. -/
def engX : Engine := fun _ _ => some [⟨0, 0⟩, ⟨1, 0⟩]

/-- A sampler whose backend call always raises (caught by the code, giving
    empty counts). -/
def sampNone : Sampler := fun _ _ => none

/-- A 1-qubit circuit holding a single x gate. -/
def cX : Circuit := ⟨1, 1, [⟨"x", [0], [], []⟩]⟩

/-- Analyzer holding `cX`. -/
def stX : Analyzer := ⟨some cX, [], 0⟩

/-- C2: on a set N-qubit circuit with no measurement operation, provided the
    engine produces a statevector (of the expected length 2^N) for the full
    circuit, `simulate_circuit` returns that statevector, an empty counts
    mapping, and a list of exactly N reduced 2x2 density matrices whose
    entry for qubit q is `reducedMat sv N q` — a function of the
    full-circuit statevector and q alone, independent of the other
    entries. -/
theorem simulate_no_measurement_contract (engine : Engine) (sampler : Sampler) (st : Analyzer)
    (c : Circuit) (sv : List Cplx) (shots : Nat)
    (hc : st.circuit = some c)
    (hm : hasMeasurements c = false)
    (he : engine c.numQubits c.ops = some sv)
    (hl : sv.length = 2 ^ c.numQubits) :
    (simulate_circuit engine sampler st shots).1 =
      SimResult.ok ⟨some sv, [],
        (List.range c.numQubits).map (fun q => reducedMat sv c.numQubits q),
        c.depth, c.numQubits, count_ops c, false⟩ ∧
    ((List.range c.numQubits).map (fun q => reducedMat sv c.numQubits q)).length =
      c.numQubits := by
  have hsv : svForCircuit engine c = some sv := by
    simp [svForCircuit, hm, he]
  have hlog : Nat.log2 sv.length = c.numQubits := by
    rw [hl]
    exact Nat.log2_two_pow
  have hpos : 0 < sv.length := by
    rw [hl]
    exact pow_pos (by norm_num) _
  have htr : tracesOf (some sv) =
      (List.range c.numQubits).map (fun q => reducedMat sv c.numQubits q) := by
    simp [tracesOf, hpos, calculateReducedTraces, hlog]
  constructor
  · simp [simulate_circuit, hc, hsv, hm, htr]
  · simp

/-- C2 witness: the single-x-gate 1-qubit circuit with the concrete engine. -/
theorem simulate_no_measurement_contract_witness :
    (simulate_circuit engX sampNone stX 1000).1 =
      SimResult.ok ⟨some [⟨0, 0⟩, ⟨1, 0⟩], [],
        (List.range cX.numQubits).map (fun q => reducedMat [⟨0, 0⟩, ⟨1, 0⟩] cX.numQubits q),
        cX.depth, cX.numQubits, count_ops cX, false⟩ ∧
    ((List.range cX.numQubits).map
      (fun q => reducedMat [⟨0, 0⟩, ⟨1, 0⟩] cX.numQubits q)).length = cX.numQubits :=
  simulate_no_measurement_contract engX sampNone stX cX [⟨0, 0⟩, ⟨1, 0⟩] 1000
    rfl (by decide) rfl (by decide)

/-- C6 counterexample: with no circuit set, `simulate_circuit` returns the
    bare empty dictionary `{}` — a normal empty result, not a `NoCircuit`
    error record — contrary to the claim that it fails fast with an error. -/
theorem simulate_no_circuit_counterexample :
    (simulate_circuit engX sampNone anaEmpty 1000).1 = SimResult.empty ∧
    isErrorResult (simulate_circuit engX sampNone anaEmpty 1000).1 = false :=
  ⟨rfl, rfl⟩

/-- C6 amended: when no circuit is set, `simulate_circuit` returns the empty
    record `{}` with the analyzer untouched (no error record of any kind);
    and a circuit with 0 qubits is not rejected either — the call proceeds
    and produces a normal (non-error) result. -/
theorem simulate_no_circuit_behavior (engine : Engine) (sampler : Sampler) (st : Analyzer)
    (shots : Nat) :
    (st.circuit = none → simulate_circuit engine sampler st shots = (SimResult.empty, st)) ∧
    (∀ c, st.circuit = some c → c.numQubits = 0 →
      isErrorResult (simulate_circuit engine sampler st shots).1 = false) := by
  constructor
  · intro h
    simp [simulate_circuit, h]
  · intro c hc _hn
    simp [simulate_circuit, hc, isErrorResult]

/-- C6 amended, witness: the unset-circuit case and a concrete 0-qubit
    circuit. -/
theorem simulate_no_circuit_behavior_witness :
    simulate_circuit engX sampNone anaEmpty 5 = (SimResult.empty, anaEmpty) ∧
    isErrorResult (simulate_circuit engX sampNone ⟨some ⟨0, 0, []⟩, [], 0⟩ 5).1 = false :=
  ⟨(simulate_no_circuit_behavior engX sampNone anaEmpty 5).1 rfl,
   (simulate_no_circuit_behavior engX sampNone ⟨some ⟨0, 0, []⟩, [], 0⟩ 5).2
     ⟨0, 0, []⟩ rfl rfl⟩

/-- C4: on a set circuit containing at least one measurement,
    `simulate_circuit` computes the statevector from the measurement-free
    copy (`measureFreeOps`, a sublist of the original operations — order
    preserved, no measurement left); when that copy is empty the statevector
    is `none` and the reduced traces are empty; the counts come from the
    sampler run on the original circuit with the caller's shot count. -/
theorem simulate_with_measurement_contract (engine : Engine) (sampler : Sampler)
    (st : Analyzer) (c : Circuit) (shots : Nat)
    (hc : st.circuit = some c)
    (hm : hasMeasurements c = true) :
    (simulate_circuit engine sampler st shots).1 =
      SimResult.ok ⟨svForCircuit engine c, (sampler c shots).getD [],
        tracesOf (svForCircuit engine c), c.depth, c.numQubits, count_ops c, true⟩ ∧
    List.Sublist (measureFreeOps c) c.ops ∧
    (∀ op, op ∈ measureFreeOps c → ¬op.name = "measure") ∧
    (measureFreeOps c = [] →
      svForCircuit engine c = none ∧ tracesOf (svForCircuit engine c) = []) ∧
    (measureFreeOps c ≠ [] →
      svForCircuit engine c = engine c.numQubits (measureFreeOps c)) := by
  refine ⟨?_, ?_, ?_, ?_, ?_⟩
  · simp [simulate_circuit, hc, hm]
  · exact List.filter_sublist _
  · intro op hop
    have h2 := List.of_mem_filter hop
    simpa using h2
  · intro hemp
    have hie : (measureFreeOps c).isEmpty = true := by
      simp [hemp]
    have hsv : svForCircuit engine c = none := by
      simp [svForCircuit, hm, hie]
    exact ⟨hsv, by simp [hsv, tracesOf]⟩
  · intro hne
    have hie : (measureFreeOps c).isEmpty = false := by
      simpa using hne
    simp [svForCircuit, hm, hie]

/-- A 1-qubit circuit with an x gate followed by a measurement. -/
def cMeas : Circuit := ⟨1, 1, [⟨"x", [0], [], []⟩, ⟨"measure", [0], [0], []⟩]⟩

/-- Analyzer holding `cMeas`. -/
def stMeas : Analyzer := ⟨some cMeas, [], 0⟩

/-- C4 witness: the x-then-measure circuit with the concrete engine and
    failing sampler. -/
theorem simulate_with_measurement_contract_witness :
    (simulate_circuit engX sampNone stMeas 100).1 =
      SimResult.ok ⟨svForCircuit engX cMeas, (sampNone cMeas 100).getD [],
        tracesOf (svForCircuit engX cMeas), cMeas.depth, cMeas.numQubits,
        count_ops cMeas, true⟩ ∧
    svForCircuit engX cMeas = engX cMeas.numQubits (measureFreeOps cMeas) :=
  ⟨(simulate_with_measurement_contract engX sampNone stMeas cMeas 100 rfl (by decide)).1,
   (simulate_with_measurement_contract engX sampNone stMeas cMeas 100 rfl (by decide)).2.2.2.2
     (by decide)⟩

/-- Every record's `step` field equals its position in the history. -/
def IndexedHist (l : List StepRec) : Prop :=
  ∀ i (h : i < l.length), (l.get ⟨i, h⟩).step = i

theorem indexedHist_append (l : List StepRec) (g : String) (qs : List Nat) (sv : List Cplx)
    (rt : List Mat2) (hl : IndexedHist l) :
    IndexedHist (l ++ [⟨l.length, g, qs, sv, rt⟩]) := by
  intro i h
  rw [List.length_append] at h
  by_cases hi : i < l.length
  · rw [List.get_eq_getElem, List.getElem_append_left hi]
    exact hl i hi
  · have hie : i = l.length := by
      simp at h
      omega
    subst hie
    simp [List.get_eq_getElem, List.getElem_concat_length]

theorem hist_foldl_length_le (engine : Engine) (n : Nat) (ops : List Op) :
    ∀ acc : HistState,
      ((ops.foldl (buildStep engine n) acc).2).length ≤
        acc.2.length + (ops.filter (fun op => op.name != "measure")).length := by
  induction ops with
  | nil =>
    intro acc
    simp
  | cons op rest ih =>
    intro acc
    rw [List.foldl_cons, List.filter_cons]
    by_cases hop : (op.name == "measure") = true
    · have hb : (op.name != "measure") = false := by
        simp [bne, hop]
      have h2 : buildStep engine n acc op = acc := by
        simp [buildStep, hop]
      rw [h2, hb]
      simpa using ih acc
    · have hb : (op.name != "measure") = true := by
        simp [bne]
        simpa using hop
      have hlen : (buildStep engine n acc op).2.length ≤ acc.2.length + 1 := by
        simp only [buildStep, hop, if_false]
        cases engine n (acc.1 ++ [op]) <;> simp
      have h3 := ih (buildStep engine n acc op)
      rw [hb]
      simp only [if_true, List.length_cons]
      omega

theorem hist_foldl_length_eq (engine : Engine) (n : Nat)
    (htot : ∀ l : List Op, (engine n l).isSome) (ops : List Op) :
    ∀ acc : HistState,
      ((ops.foldl (buildStep engine n) acc).2).length =
        acc.2.length + (ops.filter (fun op => op.name != "measure")).length := by
  induction ops with
  | nil =>
    intro acc
    simp
  | cons op rest ih =>
    intro acc
    rw [List.foldl_cons, List.filter_cons]
    by_cases hop : (op.name == "measure") = true
    · have hb : (op.name != "measure") = false := by
        simp [bne, hop]
      have h2 : buildStep engine n acc op = acc := by
        simp [buildStep, hop]
      rw [h2, hb]
      simpa using ih acc
    · have hb : (op.name != "measure") = true := by
        simp [bne]
        simpa using hop
      obtain ⟨sv, hsv⟩ := Option.isSome_iff_exists.mp (htot (acc.1 ++ [op]))
      have h2 : buildStep engine n acc op =
          (acc.1 ++ [op],
           acc.2 ++ [⟨acc.2.length, op.name, op.qargs, sv, calculateReducedTraces sv⟩]) := by
        simp [buildStep, hop, hsv]
      rw [h2, hb]
      have h3 := ih (acc.1 ++ [op],
        acc.2 ++ [⟨acc.2.length, op.name, op.qargs, sv, calculateReducedTraces sv⟩])
      simp only [if_true, List.length_cons] at h3 ⊢
      rw [h3]
      simp only [List.length_append, List.length_cons, List.length_nil]
      omega

theorem hist_foldl_indexed (engine : Engine) (n : Nat) (ops : List Op) :
    ∀ acc : HistState, IndexedHist acc.2 →
      IndexedHist ((ops.foldl (buildStep engine n) acc).2) := by
  induction ops with
  | nil =>
    intro acc hacc
    simpa using hacc
  | cons op rest ih =>
    intro acc hacc
    rw [List.foldl_cons]
    apply ih
    by_cases hop : (op.name == "measure") = true
    · have h2 : buildStep engine n acc op = acc := by
        simp [buildStep, hop]
      rw [h2]
      exact hacc
    · simp only [buildStep, hop, if_false]
      cases hsv : engine n (acc.1 ++ [op]) with
      | none =>
        exact hacc
      | some sv =>
        exact indexedHist_append acc.2 op.name op.qargs sv (calculateReducedTraces sv) hacc

/-- C3: building the state history skips every measurement (a measurement
    contributes no record and leaves indexing and accumulator untouched); a
    step where the engine fails is dropped while the operation stays in the
    accumulator and building continues; the history length is at most the
    number of non-measurement operations, with equality when the engine
    never fails; and each emitted record's `step` equals its position in
    the history. -/
theorem state_history_contract (engine : Engine) (c : Circuit) :
    (build_state_history engine c).length ≤
      (c.ops.filter (fun op => op.name != "measure")).length ∧
    ((∀ l : List Op, (engine c.numQubits l).isSome) →
      (build_state_history engine c).length =
        (c.ops.filter (fun op => op.name != "measure")).length) ∧
    IndexedHist (build_state_history engine c) ∧
    (∀ acc : HistState, ∀ op : Op, (op.name == "measure") = true →
      buildStep engine c.numQubits acc op = acc) ∧
    (∀ acc : HistState, ∀ op : Op, (op.name == "measure") = false →
      engine c.numQubits (acc.1 ++ [op]) = none →
      buildStep engine c.numQubits acc op = (acc.1 ++ [op], acc.2)) := by
  refine ⟨?_, ?_, ?_, ?_, ?_⟩
  · have h := hist_foldl_length_le engine c.numQubits c.ops ([], [])
    simpa [build_state_history] using h
  · intro htot
    have h := hist_foldl_length_eq engine c.numQubits htot c.ops ([], [])
    simpa [build_state_history] using h
  · apply hist_foldl_indexed
    intro i h
    simp at h
  · intro acc op hop
    simp [buildStep, hop]
  · intro acc op hop hfail
    simp [buildStep, hop, hfail]

/-- C3 witness: concrete run on the single-x-gate circuit with the
    always-succeeding engine, plus a concrete measurement skip. -/
theorem state_history_contract_witness :
    (build_state_history engX cX).length ≤
      (cX.ops.filter (fun op => op.name != "measure")).length ∧
    (build_state_history engX cX).length =
      (cX.ops.filter (fun op => op.name != "measure")).length ∧
    IndexedHist (build_state_history engX cX) ∧
    buildStep engX cX.numQubits ([], []) ⟨"measure", [0], [0], []⟩ = ([], []) :=
  ⟨(state_history_contract engX cX).1,
   (state_history_contract engX cX).2.1 (fun _ => rfl),
   (state_history_contract engX cX).2.2.1,
   (state_history_contract engX cX).2.2.2.1 ([], []) ⟨"measure", [0], [0], []⟩ (by decide)⟩
